import Mathlib

set_option maxRecDepth 100000

/-!
Verification development for the CHATTY knowledge-base backend.

The JavaScript sources are shallowly embedded:
* JS strings are modelled as `List Char` (`Str`), with `String.toLowerCase`,
  `String.includes`, `String.slice`, `String.split`, `trim` and the regex
  replacements used by the code modelled as executable functions below.
* The SQLite `knowledge` table is modelled as a `List Entry`; the `tags`
  column (JSON text) is modelled at the parsed level (`Option (List Str)`),
  `JSON.stringify`/`JSON.parse` being mutually inverse on lists of strings,
  except where raw-text matching matters, where an explicit JSON rendering
  is used.
* Each HTTP handler becomes a pure function from the store (plus the crawl
  result, supplied as data, since the network is external) to the new store
  and response data.

Two versions of the knowledge router exist in the repository:
`backend/routes/knowledge.js` (mounted by `backend/app.js`), embedded in
namespace `KJ`, and the variant router in `src/unnamed/part_007`, embedded
in namespace `P7`.
-/

/-- JS strings are modelled as lists of characters. -/
abbrev Str := List Char

/-- Coerce a Lean string literal to the JS-string model. -/
def str (s : String) : Str := s.data

/-- `String.prototype.toLowerCase` (ASCII-faithful). -/
def lowerStr (s : Str) : Str := s.map Char.toLower

/-- Does `s` start with `pat`? (used to model `String.prototype.startsWith`). -/
def strStartsWith : Str → Str → Bool
  | _, [] => true
  | [], _ :: _ => false
  | c :: cs, p :: ps => c == p && strStartsWith cs ps

/-- `String.prototype.includes`: does `s` contain `pat` as a contiguous
substring?  (Also models SQL `LIKE '%pat%'` after lowering both sides.) -/
def strHas : Str → Str → Bool
  | [], pat => strStartsWith [] pat
  | s@(_ :: rest), pat => strStartsWith s pat || strHas rest pat

/-- Whitespace characters recognised by the JS `\s` class (ASCII part). -/
def isWs (c : Char) : Bool :=
  c == ' ' || c == '\t' || c == '\n' || c == '\r' || c == '\x0b' || c == '\x0c'

/-- `String.prototype.trim` (ASCII whitespace). -/
def trimStr (s : Str) : Str :=
  ((s.dropWhile isWs).reverse.dropWhile isWs).reverse

mutual
/-- Scanner for `.replace(/\s+/g, ' ')`: copy characters, emitting a single
space for each maximal whitespace run. -/
def collapseWsGo : Str → Str
  | [] => []
  | c :: rest => if isWs c then ' ' :: collapseWsSkip rest else c :: collapseWsGo rest

/-- Companion of `collapseWsGo`: currently inside a whitespace run. -/
def collapseWsSkip : Str → Str
  | [] => []
  | c :: rest => if isWs c then collapseWsSkip rest else c :: collapseWsGo rest
end

/-- `.replace(/\s+/g, ' ')`. -/
def collapseWs (s : Str) : Str := collapseWsGo s

/-- The punctuation class `[.,!?]` of the content-cleaning regexes. -/
def isPunct (c : Char) : Bool := c == '.' || c == ',' || c == '!' || c == '?'

mutual
/-- Scanner for `.replace(/\s+([.,!?])/g, '$1')`: a whitespace run followed
by punctuation is replaced by the punctuation character alone. -/
def punctFixGo : Str → Str
  | [] => []
  | c :: rest => if isWs c then punctFixWs [c] rest else c :: punctFixGo rest

/-- Companion of `punctFixGo`: `runRev` is the pending whitespace run,
reversed. -/
def punctFixWs (runRev : Str) : Str → Str
  | [] => runRev.reverse
  | c :: rest =>
    if isWs c then punctFixWs (c :: runRev) rest
    else if isPunct c then c :: punctFixGo rest
    else runRev.reverse ++ c :: punctFixGo rest
end

/-- `.replace(/[^a-z0-9\s-]/g, ' ')` on already-lowercased text: keep
lowercase letters, digits, whitespace and hyphen, blank out the rest. -/
def keepAlnumWsDash (s : Str) : Str :=
  s.map fun c =>
    if ('a' ≤ c && c ≤ 'z') || ('0' ≤ c && c ≤ '9') || isWs c || c == '-' then c else ' '

/-- `String.prototype.split(sep)` for a single-character separator. -/
def splitChar (sep : Char) : Str → List Str
  | [] => [[]]
  | c :: rest =>
    if c == sep then [] :: splitChar sep rest
    else match splitChar sep rest with
      | [] => [[c]]
      | t :: ts => (c :: t) :: ts

mutual
/-- `String.prototype.split(/\s+/)`: fields between maximal whitespace runs;
an empty leading/trailing field appears when the string starts/ends with
whitespace, matching the JS semantics. -/
def splitWsGo (acc : Str) : Str → List Str
  | [] => [acc.reverse]
  | c :: rest =>
    if isWs c then acc.reverse :: splitWsSkip rest else splitWsGo (c :: acc) rest

/-- Companion of `splitWsGo`: inside a whitespace run. -/
def splitWsSkip : Str → List Str
  | [] => [[]]
  | c :: rest => if isWs c then splitWsSkip rest else splitWsGo [c] rest
end

/-- `s.split(/\s+/)`. -/
def splitWs (s : Str) : List Str := splitWsGo [] s

/-- JS `\w` class membership (`[A-Za-z0-9_]`). -/
def isWordChar (c : Char) : Bool :=
  ('a' ≤ c && c ≤ 'z') || ('A' ≤ c && c ≤ 'Z') || ('0' ≤ c && c ≤ '9') || c == '_'

/-- Worker for `replaceWB`. `prevIsWord` records whether the character just
before the scan position is a word character (for the leading `\b`). -/
def replaceWBGo (pat repl : Str) (hne : pat ≠ []) (prevIsWord : Bool) : Str → Str
  | [] => []
  | c :: rest =>
    if strStartsWith (c :: rest) pat && !prevIsWord &&
        (match (c :: rest).drop pat.length with
          | [] => true
          | d :: _ => !isWordChar d) then
      repl ++ replaceWBGo pat repl hne
        (match pat.getLast? with | some l => isWordChar l | none => prevIsWord)
        ((c :: rest).drop pat.length)
    else
      c :: replaceWBGo pat repl hne (isWordChar c) rest
termination_by s => s.length
decreasing_by
  · simp only [List.length_drop, List.length_cons]
    have : 1 ≤ pat.length := by
      cases pat with
      | nil => exact absurd rfl hne
      | cons p ps => simp
    omega
  · simp

/-- `String.prototype.replace(/\bpat\b/g, repl)` for the word-delimited
patterns used by the tag canonicaliser (all of which begin and end with word
characters, so `\b` requires the neighbouring character to be a non-word
character or the string edge). Matching is left-to-right, non-overlapping,
over the original string. -/
def replaceWB (pat repl s : Str) : Str :=
  match h : pat with
  | [] => s
  | _ :: _ => replaceWBGo pat repl (by simp [h]) false s

/-- Map a list of Lean string literals into the JS-string model. -/
def strs (l : List String) : List Str := l.map str

/-- `[...new Set(list)]`: deduplicate keeping the first occurrence of each
element, preserving insertion order. -/
def dedupFirst (l : List Str) : List Str :=
  l.foldl (fun acc w => if acc.contains w then acc else acc ++ [w]) []

/-- Insert into a count-descending list, after all entries with an equal or
larger count: this reproduces the (stable) JS `sort(([,a],[,b]) => b - a)`. -/
def insertByCountDesc (x : Str × Nat) : List (Str × Nat) → List (Str × Nat)
  | [] => [x]
  | y :: ys => if y.2 ≤ x.2 then x :: y :: ys else y :: insertByCountDesc x ys

/-- Stable sort by count, descending. -/
def sortByCountDesc (l : List (Str × Nat)) : List (Str × Nat) :=
  l.foldr insertByCountDesc []

namespace KJ

/-- `staticTags` of `extractTags` in `backend/routes/knowledge.js` (the
source lists `'wallet'` twice; the duplicate is kept here). -/
def staticTags : List Str := strs
  ["bitcoin", "lightning", "nostr", "hardware", "software", "cashu", "wallet",
   "node", "api", "extension", "protocol", "blockchain", "cryptocurrency",
   "mining", "wallet", "exchange", "defi", "smart contract", "layer2",
   "scaling", "privacy", "security", "development", "documentation"]

/-- The stop-word list of the word filter in `extractTags`. -/
def stopWords : List Str := strs
  ["the", "and", "for", "are", "but", "not", "you", "all", "can", "had",
   "her", "was", "one", "our", "out", "day", "get", "has", "him", "his",
   "how", "man", "new", "now", "old", "see", "two", "way", "who", "boy",
   "did", "its", "let", "put", "say", "she", "too", "use", "this", "that",
   "with", "from", "have", "will", "would", "could", "should", "when",
   "where", "what", "why", "which", "there", "their", "they", "them",
   "then", "than", "been", "being", "into", "over", "under", "after",
   "before", "during", "within", "without", "against", "among", "between",
   "through", "throughout", "toward", "towards", "upon", "concerning",
   "regarding", "about", "like", "such", "very", "much", "many", "few",
   "some", "any", "each", "every", "either", "neither", "both", "either",
   "neither", "none", "all", "most", "least", "more", "less", "fewer",
   "several", "various", "different", "same", "similar", "other", "another",
   "next", "last", "first", "second", "third", "fourth", "fifth", "sixth",
   "seventh", "eighth", "ninth", "tenth", "electronic", "cash"]

/-- The UI-chrome word list filtered out of candidate tags. -/
def uiWords : List Str := strs
  ["menu", "navigation", "home", "about", "contact", "login", "register",
   "sign", "search", "submit", "button", "link", "click", "here", "read",
   "more", "less", "show", "hide", "expand", "collapse", "toggle", "open",
   "close", "next", "previous", "back", "forward", "up", "down", "left",
   "right", "top", "bottom", "header", "footer", "sidebar", "main",
   "content", "page", "site", "web", "website", "skip", "loading", "error",
   "success", "warning", "info", "help", "support", "faq", "public",
   "notifications", "fork", "star", "code", "issues", "pull", "requests",
   "actions", "projects", "security", "sponsor"]

/-- `searchWordMappings` of `extractTags`, flattened from the JS object
literal: keys are listed in first-insertion order and carry their last
assigned value (the duplicate key `'node'` ends up mapped to `'lightning'`,
and the duplicate `'mint'` keeps `'cashu'`). -/
def searchWordMappings : List (Str × Str) :=
  [(str "btc", str "bitcoin"), (str "satoshi", str "bitcoin"),
   (str "blockchain", str "bitcoin"), (str "mining", str "bitcoin"),
   (str "node", str "lightning"), (str "wallet", str "bitcoin"),
   (str "electrum", str "bitcoin"), (str "hardware", str "bitcoin"),
   (str "multisig", str "bitcoin"), (str "private", str "bitcoin"),
   (str "keys", str "bitcoin"), (str "address", str "bitcoin"),
   (str "transaction", str "bitcoin"), (str "fee", str "bitcoin"),
   (str "mempool", str "bitcoin"), (str "block", str "bitcoin"),
   (str "lightning", str "lightning"), (str "channel", str "lightning"),
   (str "payment", str "lightning"), (str "invoice", str "lightning"),
   (str "lnurl", str "lightning"), (str "lnbits", str "lightning"),
   (str "btcpay", str "lightning"), (str "routing", str "lightning"),
   (str "peer", str "lightning"), (str "sat", str "lightning"),
   (str "sats", str "lightning"), (str "millisat", str "lightning"),
   (str "msat", str "lightning"), (str "nostr", str "nostr"),
   (str "relay", str "nostr"), (str "npub", str "nostr"),
   (str "nsec", str "nostr"), (str "note", str "nostr"),
   (str "event", str "nostr"), (str "client", str "nostr"),
   (str "pubkey", str "nostr"), (str "signature", str "nostr"),
   (str "nip", str "nostr"), (str "zap", str "nostr"),
   (str "reaction", str "nostr"), (str "dm", str "nostr"),
   (str "direct", str "nostr"), (str "message", str "nostr"),
   (str "cashu", str "cashu"), (str "ecash", str "cashu"),
   (str "mint", str "cashu"), (str "proof", str "cashu"),
   (str "blinded", str "cashu"), (str "token", str "cashu"),
   (str "melt", str "cashu"), (str "split", str "cashu"),
   (str "join", str "cashu"), (str "electronic", str "cashu"),
   (str "cash", str "cashu")]

/-- The NWC canonicalisation block of `extractTags`. -/
def canonNwc (nc : Str) : Str :=
  if strHas nc (str "nwc") || strHas nc (str "nostr wallet connect") then
    replaceWB (str "nostr wallet connect") (str "nostr wallet connect (nwc)")
      (replaceWB (str "nwc") (str "nostr wallet connect (nwc)") nc)
  else nc

/-- The eCash canonicalisation block of `extractTags`. -/
def canonEcash (nc : Str) : Str :=
  if strHas nc (str "cashu") || strHas nc (str "ecash") ||
      strHas nc (str "electronic cash") then
    let inds := strs ["cashu", "ecash", "electronic cash", "mint", "proof", "blinded"]
    if inds.any (fun i => strHas nc i) then
      replaceWB (str "electronic cash") (str "electronic cash (ecash)")
        (replaceWB (str "cashu") (str "electronic cash (ecash)")
          (replaceWB (str "ecash") (str "electronic cash (ecash)") nc))
    else nc
  else nc

/-- `extractTags(content, url)` of `backend/routes/knowledge.js`
(lines 609-796), step for step: lowercase, canonicalise NWC/eCash,
return the fixed pair for the inaccessible sentinels, match static tags,
frequency-rank meaningful words, infer ecosystem tags, add the special
normalised tags, and cap the result at 15. -/
def extractTags (content url : Str) : List Str :=
  let nc := canonEcash (canonNwc (lowerStr content))
  if content = str "Content not accessible via crawling" ∨
      content = str "Twitter/X profile - content not accessible via crawling" then
    [str "social", str "profile"]
  else
    let foundStatic := staticTags.filter fun t =>
      strHas nc t || strHas (lowerStr url) t
    let cleaned := trimStr (collapseWs (keepAlnumWsDash (punctFixGo (collapseWs nc))))
    let words := (splitChar ' ' cleaned).filter fun w =>
      3 ≤ w.length && w.length ≤ 20 &&
      (!w.isEmpty && w.all fun c => 'a' ≤ c && c ≤ 'z') &&
      !stopWords.contains w
    let filteredWords := words.filter fun w => !uiWords.contains w
    let counted := (dedupFirst filteredWords).map fun w => (w, filteredWords.count w)
    let sortedWords := ((sortByCountDesc counted).take 10).map (·.1)
    let allTags0 := dedupFirst (foundStatic ++ sortedWords)
    let detected := dedupFirst
      ((searchWordMappings.filter fun kv =>
          strHas nc kv.1 || strHas (lowerStr url) kv.1).map (·.2))
    let allTags1 := detected.foldl
      (fun acc eco => if acc.contains eco then acc else acc ++ [eco]) allTags0
    let allTags2 :=
      if strHas nc (str "nostr wallet connect") then
        allTags1 ++ [str "nostr-wallet-connect", str "nwc"]
      else allTags1
    let allTags3 :=
      if strHas nc (str "electronic cash") then
        allTags2 ++ [str "electronic-cash", str "ecash", str "cashu"]
      else allTags2
    allTags3.take 15

end KJ

/-- One row of the SQLite `knowledge` table.  `status` is the raw TEXT
column; `tags` is the JSON `tags` column at the parsed level (`none` for SQL
NULL); `content`, `errorMsg` and `metadata` are nullable TEXT columns;
`updatedAt` abstracts the DATETIME column as a number. The `metadata`
column only exists in the `part_007` schema and stays `none` for rows
written by `backend/routes/knowledge.js`. -/
structure Entry where
  url : Str
  status : Str
  tags : Option (List Str)
  content : Option Str
  errorMsg : Option Str
  updatedAt : Nat
  metadata : Option Str
deriving DecidableEq

/-- Render a tag list the way `JSON.stringify` stores it in the `tags`
column (tags are plain lowercase words, so no escaping arises). -/
def jsonTags (ts : List Str) : Str :=
  '[' :: List.intercalate [','] (ts.map fun t => '"' :: t ++ ['"']) ++ [']']

/-- `ORDER BY updatedAt DESC` as a relation on rows. -/
def byUpdatedDesc (a b : Entry) : Prop := b.updatedAt ≤ a.updatedAt

instance : DecidableRel byUpdatedDesc := fun a b =>
  inferInstanceAs (Decidable (b.updatedAt ≤ a.updatedAt))

instance : IsTotal Entry byUpdatedDesc :=
  ⟨fun a b => (Nat.le_total b.updatedAt a.updatedAt).imp id id⟩

instance : IsTrans Entry byUpdatedDesc :=
  ⟨fun _ _ _ h h' => Nat.le_trans h' h⟩

/-- The outcome of `crawlUrl(url)`: either the processed page content or an
error message with its classified type (the network being external, handlers
take this as an argument). -/
inductive CrawlResult where
  | ok (content : Str)
  | fail (error : Str) (errorType : Str)
deriving DecidableEq

namespace KJ

/-- `classifyError(errorMessage, url)` of `backend/routes/knowledge.js`
(lines 580-600): most-specific-first substring matching on the lowercased
message. The `url` parameter is unused by the source as well. -/
def classifyError (msg _url : Str) : Str :=
  let e := lowerStr msg
  if strHas e (str "timeout") || strHas e (str "navigation timeout") then
    str "TIMEOUT"
  else if strHas e (str "net::err_connection_refused") ||
      strHas e (str "connection refused") then str "CONNECTION_REFUSED"
  else if strHas e (str "net::err_name_not_resolved") || strHas e (str "dns") then
    str "DNS_ERROR"
  else if strHas e (str "net::err_connection_timed_out") then
    str "CONNECTION_TIMEOUT"
  else if strHas e (str "net::err_ssl_protocol_error") || strHas e (str "ssl") then
    str "SSL_ERROR"
  else if strHas e (str "net::err_blocked_by_client") || strHas e (str "blocked") then
    str "BLOCKED"
  else if strHas e (str "net::err_invalid_url") then str "INVALID_URL"
  else str "UNKNOWN"

/-- `isRetryableError(errorType)` (lines 603-606). -/
def isRetryableError (errorType : Str) : Bool :=
  [str "TIMEOUT", str "CONNECTION_TIMEOUT", str "DNS_ERROR"].contains errorType

/-- A fresh row as created by
`INSERT OR IGNORE INTO knowledge (url, status) VALUES (?, 'pending')`:
every other column is NULL, `updatedAt` takes the current time. -/
def pendingRow (url : Str) (now : Nat) : Entry :=
  ⟨url, str "pending", none, none, none, now, none⟩

/-- `INSERT OR IGNORE`: keep the store unchanged when a row with this url
exists, otherwise append the fresh pending row. -/
def insertIgnorePending (store : List Entry) (url : Str) (now : Nat) : List Entry :=
  if store.any (fun e => e.url == url) then store else store ++ [pendingRow url now]

/-- `INSERT OR REPLACE`: the conflicting row (same unique url) is deleted
and the new row inserted. -/
def insertOrReplace (store : List Entry) (e : Entry) : List Entry :=
  store.filter (fun x => !(x.url == e.url)) ++ [e]

/-- The success-path UPDATE shared by `/crawl`, `/crawl-all`, `/crawl-single`
and `/recrawl-all`:
`UPDATE knowledge SET status='crawled', tags=?, content=?, errorMsg=NULL,
updatedAt=CURRENT_TIMESTAMP WHERE url=?` with `tags = extractTags(content,
url)` and `content = result.content.slice(0, 300)`. -/
def updateCrawled (store : List Entry) (url content : Str) (now : Nat) : List Entry :=
  store.map fun e =>
    if e.url == url then
      { e with status := str "crawled", tags := some (extractTags content url),
               content := some (content.take 300), errorMsg := none, updatedAt := now }
    else e

/-- The failure-path UPDATE shared by the same handlers:
`UPDATE knowledge SET status='failed', errorMsg=?, updatedAt=CURRENT_TIMESTAMP
WHERE url=?`. -/
def updateFailed (store : List Entry) (url err : Str) (now : Nat) : List Entry :=
  store.map fun e =>
    if e.url == url then
      { e with status := str "failed", errorMsg := some err, updatedAt := now }
    else e

/-- `POST /knowledge/add {url, content?, tags?}` (lines 799-820): with
content, `INSERT OR REPLACE (url, 'crawled', content, tags)` where the tags
are the caller's or `extractTags(content, url)`; without content,
`INSERT OR IGNORE (url, 'pending')`. -/
def addHandler (store : List Entry) (url : Str) (content : Option Str)
    (tags : Option (List Str)) (now : Nat) : List Entry :=
  match content with
  | some c =>
    insertOrReplace store
      ⟨url, str "crawled", some (tags.getD (extractTags c url)), some c, none, now, none⟩
  | none => insertIgnorePending store url now

/-- `POST /knowledge/crawl {url}` (lines 823-862): ensure the row exists as
pending, then apply the success or failure UPDATE according to the
`crawlUrl` result. -/
def crawlHandler (store : List Entry) (url : Str) (result : CrawlResult)
    (now : Nat) : List Entry :=
  let store1 := insertIgnorePending store url now
  match result with
  | .ok c => updateCrawled store1 url c now
  | .fail err _ => updateFailed store1 url err now

/-- The selection query of `POST /knowledge/crawl-all` (line 902):
`SELECT url FROM knowledge WHERE status = 'pending' OR status = 'failed'`. -/
def crawlAllSelect (store : List Entry) : List Entry :=
  store.filter fun e => e.status == str "pending" || e.status == str "failed"

/-- `GET /knowledge/search?q=` (lines 873-886): a single
`LIKE '%q%'` filter over content, tags and url (SQLite `LIKE` is
ASCII-case-insensitive), `ORDER BY updatedAt DESC LIMIT 10`. The `tags`
column is matched as its stored JSON text. -/
def searchHandler (q : Str) (store : List Entry) : List Entry :=
  let ql := lowerStr q
  let hits := store.filter fun e =>
    (match e.content with | some c => strHas (lowerStr c) ql | none => false) ||
    (match e.tags with | some ts => strHas (lowerStr (jsonTags ts)) ql | none => false) ||
    strHas (lowerStr e.url) ql
  (hits.insertionSort byUpdatedDesc).take 10

/-- `DELETE /knowledge/clear` (lines 1144-1149): `DELETE FROM knowledge`,
no status filter of any kind. -/
def clearHandler (_store : List Entry) : List Entry := []

/-- `DELETE /knowledge/remove {url}` (lines 889-896). -/
def removeHandler (store : List Entry) (url : Str) : List Entry :=
  store.filter fun e => !(e.url == url)

end KJ

namespace KJ

/-- One element of the `improvements` array built by `POST /recrawl-all`
(lines 1067-1077). -/
structure Improvement where
  url : Str
  tagImprovement : Bool
  contentImprovement : Bool
  oldTags : Nat
  newTags : Nat
  oldContentLength : Nat
  newContentLength : Nat
deriving DecidableEq

/-- The per-row improvement check of `POST /recrawl-all` on a successful
recrawl (lines 1059-1077): `newTags = extractTags(result.content, row.url)`,
`oldTags = row.tags ? JSON.parse(row.tags) : []`, and a record is pushed iff
`newTags.length > oldTags.length || result.content.length >
(row.content ? row.content.length : 0)`. -/
def improvementOf (row : Entry) (newContent : Str) : Option Improvement :=
  let newTags := extractTags newContent row.url
  let oldTags := row.tags.getD []
  let oldLen := (row.content.getD []).length
  let tagImp : Bool := oldTags.length < newTags.length
  let contentImp : Bool := oldLen < newContent.length
  if tagImp || contentImp then
    some ⟨row.url, tagImp, contentImp, oldTags.length, newTags.length,
          oldLen, newContent.length⟩
  else none

/-- `POST /knowledge/recrawl-all` — the first registered handler
(lines 1035-1141), the one Express dispatches; the second handler at line
1231 is shadowed. It selects ALL rows (`SELECT * FROM knowledge ORDER BY
updatedAt DESC`, no status filter), recrawls each sequentially, applies the
success/failure UPDATE, and collects the `improvements` list computed from
the original row snapshots. -/
def recrawlAllHandler (store : List Entry) (crawl : Str → CrawlResult)
    (now : Nat) : List Entry × List Improvement :=
  let rows := store.insertionSort byUpdatedDesc
  (rows.foldl (fun st row =>
      match crawl row.url with
      | .ok c => updateCrawled st row.url c now
      | .fail err _ => updateFailed st row.url err now) store,
   rows.filterMap fun row =>
      match crawl row.url with
      | .ok c => improvementOf row c
      | .fail _ _ => none)

/-- One scored row of `GET /semantic-search`. -/
structure Scored where
  entry : Entry
  score : Nat
deriving DecidableEq

/-- `b.score - a.score` descending sort order. -/
def byScoreDesc (a b : Scored) : Prop := b.score ≤ a.score

instance : DecidableRel byScoreDesc := fun a b =>
  inferInstanceAs (Decidable (b.score ≤ a.score))

instance : IsTotal Scored byScoreDesc :=
  ⟨fun a b => (Nat.le_total b.score a.score).imp id id⟩

instance : IsTrans Scored byScoreDesc :=
  ⟨fun _ _ _ h h' => Nat.le_trans h' h⟩

/-- The ecosystem keyword table of `GET /semantic-search` (lines 1354-1359). -/
def semanticEcosystems : List (Str × List Str) :=
  [(str "bitcoin", strs ["btc", "satoshi", "blockchain", "wallet", "mining", "node"]),
   (str "lightning", strs ["lightning", "channel", "payment", "invoice", "lnurl", "lnbits"]),
   (str "nostr", strs ["nostr", "relay", "npub", "nsec", "note", "event", "client"]),
   (str "cashu", strs ["cashu", "ecash", "mint", "proof", "blinded", "token"])]

/-- The per-entry score of `GET /semantic-search` (lines 1339-1373):
+10 per query word in the content, +15 per query word contained in some tag,
+20 per ecosystem whose keyword list hits a query word while the ecosystem
name occurs in the content or tags, +5 when the url contains the whole
query. -/
def semanticScore (q : Str) (e : Entry) : Nat :=
  let content := lowerStr (e.content.getD [])
  let tags := e.tags.getD []
  let query := lowerStr q
  let queryWords := (splitChar ' ' query).filter fun w => 2 < w.length
  let base := queryWords.foldl (fun acc w =>
    (if strHas content w then acc + 10 else acc) +
    (if tags.any (fun t => strHas t w) then 15 else 0)) 0
  let eco := semanticEcosystems.foldl (fun acc kv =>
    if queryWords.any (fun w => kv.2.contains w) &&
        (strHas content kv.1 || tags.contains kv.1) then acc + 20 else acc) 0
  let urlB := if strHas (lowerStr e.url) query then 5 else 0
  base + eco + urlB

/-- `GET /knowledge/semantic-search?q=` (lines 1319-1394): select rows with
`status = "crawled" AND content IS NOT NULL AND content != ""` ordered by
recency, score each, keep strictly positive scores, sort by score descending
and return the top 10. -/
def semanticSearchHandler (q : Str) (store : List Entry) : List Scored :=
  let rows := (store.filter fun e =>
    e.status == str "crawled" &&
    (match e.content with | some c => !c.isEmpty | none => false)).insertionSort
      byUpdatedDesc
  let scored := rows.map fun e => Scored.mk e (semanticScore q e)
  ((scored.filter fun r => 0 < r.score).insertionSort byScoreDesc).take 10

/-- `POST /knowledge/add-wallet-info` (lines 1397-1443): INSERT OR REPLACE
with the special `'protected'` status; the content is assembled from the
wallet name, description and LNURL feature list, and the tags default to
`[walletName.toLowerCase(), 'wallet', 'lightning', 'lnurl']`. The assembled
content text is abstracted as `content` here. -/
def addWalletInfoHandler (store : List Entry) (url : Str) (tags : Option (List Str))
    (walletName content : Str) (now : Nat) : List Entry :=
  insertOrReplace store
    ⟨url, str "protected",
     some (tags.getD [lowerStr walletName, str "wallet", str "lightning", str "lnurl"]),
     some content, none, now, none⟩

end KJ

namespace P7

/-- The metadata object assembled by `extractEnhancedContent` in
`src/unnamed/part_007`, restricted to the fields `extractTags` reads. -/
structure Metadata where
  socialLinks : List Str
  emails : List Str
  marketingTags : List Str
deriving DecidableEq

/-- `staticTags` of the `part_007` variant of `extractTags` (line 214). -/
def staticTags : List Str := strs
  ["bitcoin", "lightning", "nostr", "hardware", "software", "cashu",
   "wallet", "node", "api", "extension", "protocol"]

/-- The stop-word list of the `part_007` word filter (line 234) — same as
the `backend/routes/knowledge.js` list except that it stops at `'tenth'`. -/
def stopWords : List Str := strs
  ["the", "and", "for", "are", "but", "not", "you", "all", "can", "had",
   "her", "was", "one", "our", "out", "day", "get", "has", "him", "his",
   "how", "man", "new", "now", "old", "see", "two", "way", "who", "boy",
   "did", "its", "let", "put", "say", "she", "too", "use", "this", "that",
   "with", "from", "have", "will", "would", "could", "should", "when",
   "where", "what", "why", "which", "there", "their", "they", "them",
   "then", "than", "been", "being", "into", "over", "under", "after",
   "before", "during", "within", "without", "against", "among", "between",
   "through", "throughout", "toward", "towards", "upon", "concerning",
   "regarding", "about", "like", "such", "very", "much", "many", "few",
   "some", "any", "each", "every", "either", "neither", "both", "either",
   "neither", "none", "all", "most", "least", "more", "less", "fewer",
   "several", "various", "different", "same", "similar", "other", "another",
   "next", "last", "first", "second", "third", "fourth", "fifth", "sixth",
   "seventh", "eighth", "ninth", "tenth"]

/-- `extractTags(content, url, metadata)` of `src/unnamed/part_007`
(lines 208-280): static-vocabulary matches, frequency-ranked meaningful
words, metadata-derived tags, deduplicated and capped at 15. -/
def extractTags (content url : Str) (metadata : Metadata) : List Str :=
  let contentL := lowerStr content
  let foundStatic := staticTags.filter fun t =>
    strHas contentL t || strHas (lowerStr url) t
  let cleaned := trimStr (collapseWs (keepAlnumWsDash contentL))
  let words := (splitChar ' ' cleaned).filter fun w =>
    3 ≤ w.length && w.length ≤ 20 &&
    (!w.isEmpty && w.all fun c => 'a' ≤ c && c ≤ 'z') &&
    !stopWords.contains w
  let filteredWords := words.filter fun w => !KJ.uiWords.contains w
  let counted := (dedupFirst filteredWords).map fun w => (w, filteredWords.count w)
  let sortedWords := ((sortByCountDesc counted).take 10).map (·.1)
  let metadataTags :=
    (if !metadata.socialLinks.isEmpty then [str "social"] else []) ++
    (if !metadata.emails.isEmpty then [str "contact"] else []) ++
    (if !metadata.marketingTags.isEmpty then [str "analytics"] else [])
  (dedupFirst (foundStatic ++ sortedWords ++ metadataTags)).take 15

/-- A scheme character of an absolute URL (`ALPHA / DIGIT / + / - / .`). -/
def isSchemeChar (c : Char) : Bool :=
  ('a' ≤ c && c ≤ 'z') || ('A' ≤ c && c ≤ 'Z') || ('0' ≤ c && c ≤ '9') ||
  c == '+' || c == '-' || c == '.'

/-- Simplified model of the WHATWG `new URL(url)` constructor as used by the
guard: yields `(protocol, hostname)` — `protocol` includes the trailing
colon and `hostname` is the lowercased authority host (empty for
non-authority URLs such as `mailto:`), both for absolute URLs without
userinfo or IPv6 brackets; any string without a scheme fails to parse
(`none`), which the handler's catch branch turns into
`400 Invalid URL format`. -/
def parseUrlSimple (u : Str) : Option (Str × Str) :=
  match u.span isSchemeChar with
  | (scheme, ':' :: rest) =>
    if scheme.isEmpty then none
    else
      let host :=
        if strStartsWith rest (str "//") then
          lowerStr ((rest.drop 2).takeWhile fun c =>
            !(c == ':' || c == '/' || c == '?' || c == '#'))
        else []
      some (lowerStr scheme ++ [':'], host)
  | _ => none

/-- The private/internal-host blacklist of the SSRF guard
(`part_007` lines 305-309). -/
def privateHost (hostname : Str) : Bool :=
  hostname == str "localhost" || hostname == str "127.0.0.1" ||
  hostname == str "0.0.0.0" || strStartsWith hostname (str "192.168.") ||
  strStartsWith hostname (str "10.") || strStartsWith hostname (str "172.")

/-- Result of the `part_007` `POST /crawl` handler: the final store, whether
the request was rejected by the URL guard (a 400 response), and whether any
browser navigation was launched. -/
structure CrawlOutcome where
  store : List Entry
  rejected : Bool
  navigated : Bool
deriving DecidableEq

/-- The crawl result of the `part_007` pipeline: page text plus metadata, or
a thrown error message. -/
inductive CrawlRes where
  | ok (content : Str) (meta : Metadata) (metaText : Str)
  | thrown (err : Str)

/-- `POST /knowledge/crawl {url}` of `src/unnamed/part_007`
(lines 293-386): the URL guard runs before any database write or browser
launch — non-http(s) protocols and private/internal hosts are rejected with
a 400; otherwise the row is upserted to `'crawling'`, the page is fetched,
and the success path stores the cleaned content (sliced to 200), tags and
metadata text, while a thrown error stores status `'error'`. -/
def crawlHandler (store : List Entry) (url : Str) (result : CrawlRes)
    (now : Nat) : CrawlOutcome :=
  match parseUrlSimple url with
  | none => ⟨store, true, false⟩
  | some (proto, host) =>
    if !(proto == str "http:" || proto == str "https:") then ⟨store, true, false⟩
    else if privateHost host then ⟨store, true, false⟩
    else
      let store1 := KJ.insertOrReplace store ⟨url, str "crawling", none, none, none, now, none⟩
      match result with
      | .ok content meta metaText =>
        let cleaned := trimStr (collapseWs content)
        let tags := extractTags cleaned url meta
        ⟨store1.map fun e =>
            if e.url == url then
              { e with status := str "crawled", tags := some tags,
                       content := some (cleaned.take 200),
                       metadata := some metaText, errorMsg := none, updatedAt := now }
            else e,
         false, true⟩
      | .thrown err =>
        ⟨store1.map fun e =>
            if e.url == url then
              { e with status := str "error", errorMsg := some err, updatedAt := now }
            else e,
         false, true⟩

end P7

namespace P7

/-- `sanitizedQuery`: `q.toString().trim().slice(0, 100)` (line 402). -/
def sanitizeQ (q : Str) : Str := (trimStr q).take 100

/-- The significant words of a query:
`sanitizedQuery.toLowerCase().split(/\s+/).filter(word => word.length > 2)`
(line 408). -/
def sigWords (sq : Str) : List Str :=
  (splitWs (lowerStr sq)).filter fun w => 2 < w.length

/-- One word-level `LIKE` disjunct of the prioritised search:
`LOWER(content) LIKE %w% OR LOWER(tags) LIKE %w% OR LOWER(url) LIKE %w% OR
LOWER(metadata) LIKE %w%` (the `tags` and `metadata` columns are matched as
their stored JSON/raw text; SQL `LOWER(NULL) LIKE x` is not a match). -/
def wordMatch (w : Str) (e : Entry) : Bool :=
  (match e.content with | some c => strHas (lowerStr c) w | none => false) ||
  (match e.tags with | some ts => strHas (lowerStr (jsonTags ts)) w | none => false) ||
  strHas (lowerStr e.url) w ||
  (match e.metadata with | some m => strHas (lowerStr m) w | none => false)

/-- The `anyMatchConditions` disjunction (rows matching ANY word). -/
def anyWords (ws : List Str) (e : Entry) : Bool := ws.any (wordMatch · e)

/-- The `allMatchConditions` conjunction (rows matching ALL words). -/
def allWords (ws : List Str) (e : Entry) : Bool := ws.all (wordMatch · e)

/-- The computed `priority` column: 1 when all words match, else 2. -/
def priority (ws : List Str) (e : Entry) : Nat := if allWords ws e then 1 else 2

/-- `ORDER BY priority ASC, updatedAt DESC` as a relation. -/
def byPriorityThenRecency (ws : List Str) (a b : Entry) : Prop :=
  priority ws a < priority ws b ∨
  (priority ws a = priority ws b ∧ b.updatedAt ≤ a.updatedAt)

instance (ws : List Str) : DecidableRel (byPriorityThenRecency ws) := fun a b =>
  inferInstanceAs (Decidable (_ ∨ _ ∧ _))

instance (ws : List Str) : IsTotal Entry (byPriorityThenRecency ws) :=
  ⟨fun a b => by
    unfold byPriorityThenRecency
    rcases Nat.lt_trichotomy (priority ws a) (priority ws b) with h | h | h
    · exact Or.inl (Or.inl h)
    · rcases Nat.le_total b.updatedAt a.updatedAt with h' | h'
      · exact Or.inl (Or.inr ⟨h, h'⟩)
      · exact Or.inr (Or.inr ⟨h.symm, h'⟩)
    · exact Or.inr (Or.inl h)⟩

instance (ws : List Str) : IsTrans Entry (byPriorityThenRecency ws) :=
  ⟨fun a b c hab hbc => by
    unfold byPriorityThenRecency at *
    rcases hab with h1 | ⟨h1, h1'⟩ <;> rcases hbc with h2 | ⟨h2, h2'⟩
    · exact Or.inl (Nat.lt_trans h1 h2)
    · exact Or.inl (h2 ▸ h1)
    · exact Or.inl (h1 ▸ h2)
    · exact Or.inr ⟨h1.trans h2, Nat.le_trans h2' h1'⟩⟩

/-- `GET /knowledge/search?q=` of `src/unnamed/part_007` (lines 397-453).
Queries shorter than 2 characters after sanitisation are rejected (modelled
as an empty result). With more than one significant word, rows matching any
word are ranked by the computed priority (1 = matches all words) and then by
recency, `LIMIT 15`; otherwise a single `LIKE '%sanitizedQuery%'` over the
four columns, `ORDER BY updatedAt DESC LIMIT 10`. -/
def searchHandler (q : Str) (store : List Entry) : List Entry :=
  let sq := sanitizeQ q
  if sq.length < 2 then []
  else
    let ws := sigWords sq
    if 1 < ws.length then
      ((store.filter (anyWords ws)).insertionSort (byPriorityThenRecency ws)).take 15
    else
      ((store.filter (wordMatch (lowerStr sq))).insertionSort byUpdatedDesc).take 10

end P7

/-! ### Concrete fixtures used by witnesses and counterexamples -/

/-- A protected wallet row as written by `POST /add-wallet-info`. -/
def walletRow : Entry :=
  ⟨str "https://github.com/search?q=phoenix", str "protected",
   some [str "phoenix", str "wallet", str "lightning", str "lnurl"],
   some (str "Phoenix - Bitcoin wallet"), none, 4, none⟩

/-- A pending row used to exercise the crawl success path. -/
def rowA : Entry := KJ.pendingRow (str "https://a.example") 0

/-- The row `rowA` after the success-path UPDATE with content `"bitcoin"`
at time 1. -/
def rowA' : Entry :=
  { rowA with status := str "crawled",
              tags := some (KJ.extractTags (str "bitcoin") (str "https://a.example")),
              content := some ((str "bitcoin").take 300),
              errorMsg := none, updatedAt := 1 }

/-- 301 characters of caller-supplied content for `POST /add`. -/
def bigContent : Str := List.replicate 301 'a'

/-- 16 caller-supplied tags for `POST /add`. -/
def manyTags : List Str := List.replicate 16 (str "t")

/-- A crawled row whose content holds the two query words non-contiguously. -/
def rowBoth : Entry :=
  ⟨str "https://one.example", str "crawled", some [], some (str "beta alpha"),
   none, 5, none⟩

/-- A crawled row whose content holds the two query words as one phrase. -/
def rowPhrase : Entry :=
  ⟨str "https://two.example", str "crawled", some [], some (str "xx alpha beta yy"),
   none, 3, none⟩

/-- A crawled row matching only one of the two query words. -/
def rowOne : Entry :=
  ⟨str "https://three.example", str "crawled", some [], some (str "only alpha here"),
   none, 9, none⟩

/-- A previously failed row with no tags and empty content, used to witness
the recrawl improvement bookkeeping. -/
def rowK : Entry :=
  ⟨str "https://k.example", str "failed", some [], some [], some (str "boom"), 3, none⟩

/-- A crawled row about bitcoin used to witness semantic search. -/
def rowSem : Entry :=
  ⟨str "https://btc.example", str "crawled", some [str "bitcoin"],
   some (str "a bitcoin wallet guide"), none, 2, none⟩

/-- Number of rows holding a given url (the uniqueness measure of the
`url TEXT UNIQUE` column). -/
def urlCount (store : List Entry) (u : Str) : Nat :=
  store.countP fun e => e.url == u

/-- The semantic-search result row for `rowSem` under the query
`"bitcoin wallet"`. -/
def rowSemScored : KJ.Scored := ⟨rowSem, 55⟩

/-! ### C1 — protection invariant vs `/crawl-all`, `/recrawl-all`, `/clear` -/

/-- C1: the protection invariant is broken by the code. `/crawl-all` indeed
never selects a protected row, but `DELETE /clear` deletes every row with no
status filter — including the protected wallet row — and the
first-registered `POST /recrawl-all` handler (the one Express dispatches)
selects every row regardless of status and overwrites the protected entry
to `'crawled'` on a successful fetch. -/
theorem c1_protected_rows_destroyed :
    KJ.crawlAllSelect [walletRow] = [] ∧
    walletRow.status = str "protected" ∧
    KJ.clearHandler [walletRow] = [] ∧
    (∃ e ∈ (KJ.recrawlAllHandler [walletRow]
        (fun _ => CrawlResult.ok (str "bitcoin")) 9).1,
      e.url = walletRow.url ∧ e.status = str "crawled") := by
  refine ⟨rfl, rfl, rfl, ?_⟩
  decide

/-! ### C2 — cap invariants (`tags ≤ 15`, `content ≤ 300`) -/

/-- C2, counterexample: `POST /add` stores caller-supplied content and tags
verbatim with status `'crawled'`, so a single `/add` write produces a
crawled entry with 301 characters of content and 16 tags. -/
theorem c2_add_write_uncapped :
    ∃ e ∈ KJ.addHandler [] (str "https://big.example") (some bigContent)
        (some manyTags) 0,
      e.status = str "crawled" ∧
      e.content = some bigContent ∧ 300 < bigContent.length ∧
      e.tags = some manyTags ∧ 15 < manyTags.length := by
  decide

/-- The tag extractor's output is capped at 15 in both of its branches. -/
theorem KJ.extractTags_length_le (c u : Str) : (KJ.extractTags c u).length ≤ 15 := by
  unfold KJ.extractTags
  split
  · simp
  · simp only [List.length_take]
    exact min_le_left _ _

/-- C2, amended: every entry written by the crawl success path (the UPDATE
shared by `/crawl`, `/crawl-all`, `/crawl-single` and `/recrawl-all`)
satisfies both caps: its tags are `extractTags(...)`, capped at 15, and its
content is `result.content.slice(0, 300)`, at most 300 characters. -/
theorem c2_crawl_write_capped (store : List Entry) (url c : Str) (now : Nat) :
    ∀ e ∈ KJ.updateCrawled store url c now, e.url = url →
      (∃ ts, e.tags = some ts ∧ ts.length ≤ 15) ∧
      (∃ cc, e.content = some cc ∧ cc.length ≤ 300) := by
  intro e he hurl
  rcases List.mem_map.mp he with ⟨e0, _, rfl⟩
  by_cases h : (e0.url == url) = true
  · rw [if_pos h]
    refine ⟨⟨_, rfl, KJ.extractTags_length_le c url⟩, ⟨_, rfl, ?_⟩⟩
    simp only [List.length_take]
    exact min_le_left _ _
  · rw [if_neg h] at hurl
    exact absurd (beq_iff_eq.mpr hurl) h

/-- C2 witness: the amended cap theorem applied to a concrete crawl write. -/
theorem c2_crawl_write_capped_witness :
    (∃ ts, rowA'.tags = some ts ∧ ts.length ≤ 15) ∧
    (∃ cc, rowA'.content = some cc ∧ cc.length ≤ 300) :=
  c2_crawl_write_capped [rowA] (str "https://a.example") (str "bitcoin") 1
    rowA' (by decide) (by decide)

/-! ### C6 — error classification and retryability -/

/-- C6, counterexample: the classifier only recognises the engine-prefixed
form `net::err_name_not_resolved`. The raw message
`"ERR_NAME_NOT_RESOLVED"` — which contains `ERR_NAME_NOT_RESOLVED` — is
classified `UNKNOWN`, not `DNS_ERROR`, and is not retryable. -/
theorem c6_bare_err_name_not_resolved_is_unknown :
    strHas (str "ERR_NAME_NOT_RESOLVED") (str "ERR_NAME_NOT_RESOLVED") = true ∧
    KJ.classifyError (str "ERR_NAME_NOT_RESOLVED") (str "https://x.example") =
      str "UNKNOWN" ∧
    KJ.classifyError (str "ERR_NAME_NOT_RESOLVED") (str "https://x.example") ≠
      str "DNS_ERROR" ∧
    KJ.isRetryableError
      (KJ.classifyError (str "ERR_NAME_NOT_RESOLVED") (str "https://x.example")) =
      false := by
  decide

/-- C6, amended: a message containing `net::ERR_NAME_NOT_RESOLVED` or `dns`
(case-insensitively) and none of the substrings matched by the earlier
classifier branches is classified `DNS_ERROR`, which is retryable; a message
containing `net::ERR_BLOCKED_BY_CLIENT` or `blocked` and none of the
earlier-branch substrings is classified `BLOCKED`, which is not retryable;
and `isRetryableError` holds exactly for `TIMEOUT`, `CONNECTION_TIMEOUT`
and `DNS_ERROR`. -/
theorem c6_classifier_amended :
    (∀ m u, strHas (lowerStr m) (str "timeout") = false →
      strHas (lowerStr m) (str "navigation timeout") = false →
      strHas (lowerStr m) (str "net::err_connection_refused") = false →
      strHas (lowerStr m) (str "connection refused") = false →
      (strHas (lowerStr m) (str "net::err_name_not_resolved") = true ∨
        strHas (lowerStr m) (str "dns") = true) →
      KJ.classifyError m u = str "DNS_ERROR" ∧
      KJ.isRetryableError (KJ.classifyError m u) = true) ∧
    (∀ m u, strHas (lowerStr m) (str "timeout") = false →
      strHas (lowerStr m) (str "navigation timeout") = false →
      strHas (lowerStr m) (str "net::err_connection_refused") = false →
      strHas (lowerStr m) (str "connection refused") = false →
      strHas (lowerStr m) (str "net::err_name_not_resolved") = false →
      strHas (lowerStr m) (str "dns") = false →
      strHas (lowerStr m) (str "net::err_connection_timed_out") = false →
      strHas (lowerStr m) (str "net::err_ssl_protocol_error") = false →
      strHas (lowerStr m) (str "ssl") = false →
      (strHas (lowerStr m) (str "net::err_blocked_by_client") = true ∨
        strHas (lowerStr m) (str "blocked") = true) →
      KJ.classifyError m u = str "BLOCKED" ∧
      KJ.isRetryableError (KJ.classifyError m u) = false) ∧
    (∀ t, KJ.isRetryableError t = true ↔
      (t = str "TIMEOUT" ∨ t = str "CONNECTION_TIMEOUT" ∨ t = str "DNS_ERROR")) := by
  refine ⟨?_, ?_, ?_⟩
  · intro m u h1 h2 h3 h4 h5
    have hcls : KJ.classifyError m u = str "DNS_ERROR" := by
      unfold KJ.classifyError
      rcases h5 with h5 | h5 <;> simp [h1, h2, h3, h4, h5]
    exact ⟨hcls, by rw [hcls]; decide⟩
  · intro m u h1 h2 h3 h4 h5 h6 h7 h8 h9 h10
    have hcls : KJ.classifyError m u = str "BLOCKED" := by
      unfold KJ.classifyError
      rcases h10 with h10 | h10 <;>
        simp [h1, h2, h3, h4, h5, h6, h7, h8, h9, h10]
    exact ⟨hcls, by rw [hcls]; decide⟩
  · intro t
    constructor
    · intro h
      simpa using List.mem_of_elem_eq_true h
    · intro h
      rcases h with rfl | rfl | rfl <;> decide

/-- C6 witness: the amended classifier theorem applied to the real
engine-style messages. -/
theorem c6_classifier_amended_witness :
    (KJ.classifyError (str "net::ERR_NAME_NOT_RESOLVED at https://x.example")
        (str "https://x.example") = str "DNS_ERROR" ∧
      KJ.isRetryableError
        (KJ.classifyError (str "net::ERR_NAME_NOT_RESOLVED at https://x.example")
          (str "https://x.example")) = true) ∧
    (KJ.classifyError (str "net::ERR_BLOCKED_BY_CLIENT at https://x.example")
        (str "https://x.example") = str "BLOCKED" ∧
      KJ.isRetryableError
        (KJ.classifyError (str "net::ERR_BLOCKED_BY_CLIENT at https://x.example")
          (str "https://x.example")) = false) ∧
    (KJ.isRetryableError (str "TIMEOUT") = true ↔
      (str "TIMEOUT" = str "TIMEOUT" ∨ str "TIMEOUT" = str "CONNECTION_TIMEOUT" ∨
        str "TIMEOUT" = str "DNS_ERROR")) :=
  ⟨c6_classifier_amended.1 (str "net::ERR_NAME_NOT_RESOLVED at https://x.example")
      (str "https://x.example") (by decide) (by decide) (by decide) (by decide)
      (Or.inl (by decide)),
   c6_classifier_amended.2.1 (str "net::ERR_BLOCKED_BY_CLIENT at https://x.example")
      (str "https://x.example") (by decide) (by decide) (by decide) (by decide)
      (by decide) (by decide) (by decide) (by decide) (by decide)
      (Or.inl (by decide)),
   c6_classifier_amended.2.2 (str "TIMEOUT")⟩

/-! ### C9 — determinism of `extractTags` -/

/-- C9: `extractTags` is a pure function of its arguments — two calls with
identical `(content, url, metadata)` (and, for the
`backend/routes/knowledge.js` variant, identical `(content, url)`) return
identical tag lists in identical order. -/
theorem c9_extractTags_deterministic :
    ∀ (c₁ u₁ : Str) (m₁ : P7.Metadata) (c₂ u₂ : Str) (m₂ : P7.Metadata),
      c₁ = c₂ → u₁ = u₂ → m₁ = m₂ →
      P7.extractTags c₁ u₁ m₁ = P7.extractTags c₂ u₂ m₂ ∧
      KJ.extractTags c₁ u₁ = KJ.extractTags c₂ u₂ := by
  intro c₁ u₁ m₁ c₂ u₂ m₂ hc hu hm
  subst hc; subst hu; subst hm
  exact ⟨rfl, rfl⟩

/-- C9 witness: determinism applied at a concrete argument triple. -/
theorem c9_extractTags_deterministic_witness :
    P7.extractTags (str "bitcoin wallet") (str "https://a.example") ⟨[], [], []⟩ =
      P7.extractTags (str "bitcoin wallet") (str "https://a.example") ⟨[], [], []⟩ ∧
    KJ.extractTags (str "bitcoin wallet") (str "https://a.example") =
      KJ.extractTags (str "bitcoin wallet") (str "https://a.example") :=
  c9_extractTags_deterministic (str "bitcoin wallet") (str "https://a.example")
    ⟨[], [], []⟩ (str "bitcoin wallet") (str "https://a.example") ⟨[], [], []⟩
    rfl rfl rfl

/-! ### C3 — crawl success/failure frame conditions -/

/-- Ensuring an existing url leaves the store unchanged
(`INSERT OR IGNORE` hits the unique-url conflict). -/
theorem KJ.insertIgnorePending_mem (store : List Entry) (e : Entry)
    (he : e ∈ store) (now : Nat) :
    KJ.insertIgnorePending store e.url now = store := by
  unfold KJ.insertIgnorePending
  rw [if_pos (List.any_eq_true.mpr ⟨e, he, by simp⟩)]

/-- C3: for a url with an existing entry, a failing `POST /crawl` sets that
entry's status to `'failed'` and its `errorMsg` to the failure description
while leaving the stored content and tags at their prior values (and such an
entry remains present); a successful `POST /crawl` sets status `'crawled'`
and `errorMsg` to NULL. -/
theorem c3_crawl_state_machine (store : List Entry) (e : Entry)
    (he : e ∈ store) (hnd : (store.map (·.url)).Nodup)
    (err et c : Str) (now : Nat) :
    (∀ e' ∈ KJ.crawlHandler store e.url (.fail err et) now, e'.url = e.url →
        e'.status = str "failed" ∧ e'.errorMsg = some err ∧
        e'.content = e.content ∧ e'.tags = e.tags) ∧
    (∃ e' ∈ KJ.crawlHandler store e.url (.fail err et) now, e'.url = e.url) ∧
    (∀ e' ∈ KJ.crawlHandler store e.url (.ok c) now, e'.url = e.url →
        e'.status = str "crawled" ∧ e'.errorMsg = none) := by
  have hkeep := KJ.insertIgnorePending_mem store e he now
  refine ⟨?_, ?_, ?_⟩
  · intro e' he' hurl
    simp only [KJ.crawlHandler, hkeep, KJ.updateFailed] at he' hurl ⊢
    rcases List.mem_map.mp he' with ⟨e0, he0, rfl⟩
    by_cases h : (e0.url == e.url) = true
    · have heq : e0 = e := List.inj_on_of_nodup_map hnd he0 he (beq_iff_eq.mp h)
      subst heq
      rw [if_pos h]
      exact ⟨rfl, rfl, rfl, rfl⟩
    · rw [if_neg h] at hurl
      exact absurd (beq_iff_eq.mpr hurl) h
  · simp only [KJ.crawlHandler, hkeep, KJ.updateFailed]
    refine ⟨_, List.mem_map.mpr ⟨e, he, rfl⟩, ?_⟩
    rw [if_pos (by simp)]
  · intro e' he' hurl
    simp only [KJ.crawlHandler, hkeep, KJ.updateCrawled] at he' hurl ⊢
    rcases List.mem_map.mp he' with ⟨e0, he0, rfl⟩
    by_cases h : (e0.url == e.url) = true
    · rw [if_pos h]
      exact ⟨rfl, rfl⟩
    · rw [if_neg h] at hurl
      exact absurd (beq_iff_eq.mpr hurl) h

/-- C3 witness: the frame theorem applied to a one-row store. -/
theorem c3_crawl_state_machine_witness :
    (∀ e' ∈ KJ.crawlHandler [rowBoth] rowBoth.url
        (.fail (str "net::ERR_NAME_NOT_RESOLVED") (str "DNS_ERROR")) 7,
      e'.url = rowBoth.url →
        e'.status = str "failed" ∧
        e'.errorMsg = some (str "net::ERR_NAME_NOT_RESOLVED") ∧
        e'.content = rowBoth.content ∧ e'.tags = rowBoth.tags) ∧
    (∃ e' ∈ KJ.crawlHandler [rowBoth] rowBoth.url
        (.fail (str "net::ERR_NAME_NOT_RESOLVED") (str "DNS_ERROR")) 7,
      e'.url = rowBoth.url) ∧
    (∀ e' ∈ KJ.crawlHandler [rowBoth] rowBoth.url (.ok (str "bitcoin")) 7,
      e'.url = rowBoth.url → e'.status = str "crawled" ∧ e'.errorMsg = none) :=
  c3_crawl_state_machine [rowBoth] rowBoth (by decide) (by decide)
    (str "net::ERR_NAME_NOT_RESOLVED") (str "DNS_ERROR") (str "bitcoin") 7

/-! ### C8 — idempotence of `POST /add` -/

/-- `INSERT OR REPLACE` leaves exactly one row for the written url. -/
theorem KJ.insertOrReplace_urlCount (store : List Entry) (x : Entry) :
    urlCount (KJ.insertOrReplace store x) x.url = 1 := by
  unfold urlCount KJ.insertOrReplace
  rw [List.countP_append]
  have h0 : (store.filter fun y => !(y.url == x.url)).countP
      (fun e => e.url == x.url) = 0 := by
    refine List.countP_eq_zero.mpr ?_
    intro a ha
    have := (List.mem_filter.mp ha).2
    simp_all
  simp [h0, List.countP_cons]

/-- One `POST /add` (either branch) leaves exactly one row for the url,
provided the unique-url constraint held before. -/
theorem KJ.addHandler_urlCount (store : List Entry) (u : Str)
    (c : Option Str) (t : Option (List Str)) (n : Nat)
    (h : urlCount store u ≤ 1) :
    urlCount (KJ.addHandler store u c t n) u = 1 := by
  match c with
  | some c0 => exact KJ.insertOrReplace_urlCount store _
  | none =>
    have hred : KJ.addHandler store u none t n = KJ.insertIgnorePending store u n := rfl
    rw [hred]
    unfold KJ.insertIgnorePending
    by_cases hany : (store.any fun e => e.url == u) = true
    · rw [if_pos hany]
      rcases List.any_eq_true.mp hany with ⟨a, ha, hpa⟩
      have hpos : 0 < urlCount store u :=
        List.countP_pos_iff.mpr ⟨a, ha, hpa⟩
      omega
    · rw [if_neg hany]
      unfold urlCount
      rw [List.countP_append]
      have h0 : store.countP (fun e => e.url == u) = 0 := by
        refine List.countP_eq_zero.mpr ?_
        intro a ha hpa
        exact hany (List.any_eq_true.mpr ⟨a, ha, hpa⟩)
      simp [h0, List.countP_cons, KJ.pendingRow]

/-- C8: calling `POST /add` twice with the same url — with or without
content or tags in either call — leaves exactly one stored row for that url
in the knowledge table, given the unique-url constraint held initially. -/
theorem c8_add_twice_idempotent (store : List Entry) (u : Str)
    (c₁ c₂ : Option Str) (t₁ t₂ : Option (List Str)) (n₁ n₂ : Nat)
    (h : urlCount store u ≤ 1) :
    urlCount (KJ.addHandler (KJ.addHandler store u c₁ t₁ n₁) u c₂ t₂ n₂) u = 1 := by
  have h1 := KJ.addHandler_urlCount store u c₁ t₁ n₁ h
  exact KJ.addHandler_urlCount _ u c₂ t₂ n₂ (by omega)

/-- C8 witness: adding the same url twice (first as pending, then with
content) to an empty store leaves exactly one row. -/
theorem c8_add_twice_idempotent_witness :
    urlCount (KJ.addHandler (KJ.addHandler [] (str "https://a.example") none none 1)
      (str "https://a.example") (some (str "bitcoin")) none 2)
      (str "https://a.example") = 1 :=
  c8_add_twice_idempotent [] (str "https://a.example") none (some (str "bitcoin"))
    none none 1 2 (by decide)

/-! ### C5 — recrawl improvement detection -/

/-- The improvement record carries the url of the row it was computed
from. -/
theorem KJ.improvementOf_url (row : Entry) (c : Str) (rec : KJ.Improvement)
    (h : KJ.improvementOf row c = some rec) : rec.url = row.url := by
  simp only [KJ.improvementOf] at h
  split at h
  · cases h; rfl
  · cases h

/-- C5: an entry processed by `POST /recrawl-all` whose recrawl succeeds
appears in the returned `improvements` list exactly when the new tag count
strictly exceeds the old tag count or the new content length strictly
exceeds the old stored content length; and any improvement record for it
reports `tagImprovement` precisely when the tag count grew (with the old and
new counts and lengths recorded). -/
theorem c5_recrawl_improvements (store : List Entry) (crawl : Str → CrawlResult)
    (now : Nat) (row : Entry) (c : Str)
    (hrow : row ∈ store) (hnd : (store.map (·.url)).Nodup)
    (hc : crawl row.url = .ok c) :
    ((∃ rec ∈ (KJ.recrawlAllHandler store crawl now).2, rec.url = row.url) ↔
      ((row.tags.getD []).length < (KJ.extractTags c row.url).length ∨
        (row.content.getD []).length < c.length)) ∧
    (∀ rec ∈ (KJ.recrawlAllHandler store crawl now).2, rec.url = row.url →
      rec.tagImprovement =
        decide ((row.tags.getD []).length < (KJ.extractTags c row.url).length) ∧
      rec.contentImprovement =
        decide ((row.content.getD []).length < c.length) ∧
      rec.oldTags = (row.tags.getD []).length ∧
      rec.newTags = (KJ.extractTags c row.url).length ∧
      rec.oldContentLength = (row.content.getD []).length ∧
      rec.newContentLength = c.length) := by
  have hmem : row ∈ store.insertionSort byUpdatedDesc :=
    ((List.perm_insertionSort byUpdatedDesc store).mem_iff).mpr hrow
  have hnd' : ((store.insertionSort byUpdatedDesc).map (·.url)).Nodup :=
    (((List.perm_insertionSort byUpdatedDesc store).map (·.url)).nodup_iff).mpr hnd
  have hrowEq : ∀ row' ∈ store.insertionSort byUpdatedDesc,
      row'.url = row.url → row' = row := fun row' h' hu =>
    List.inj_on_of_nodup_map hnd' h' hmem hu
  constructor
  · constructor
    · rintro ⟨rec, hrec, hurl⟩
      rcases List.mem_filterMap.mp hrec with ⟨row', hrow', hsome⟩
      rcases hcr : crawl row'.url with c' | ⟨e', t'⟩
      · rw [hcr] at hsome
        have hru : row' = row := by
          apply hrowEq row' hrow'
          rw [← KJ.improvementOf_url row' c' rec hsome, hurl]
        subst hru
        rw [hc] at hcr
        cases hcr
        simp only [KJ.improvementOf] at hsome
        split at hsome
        · rename_i hcond
          simpa using hcond
        · cases hsome
      · rw [hcr] at hsome
        cases hsome
    · intro hcond
      refine ⟨⟨row.url,
          decide ((row.tags.getD []).length < (KJ.extractTags c row.url).length),
          decide ((row.content.getD []).length < c.length),
          (row.tags.getD []).length, (KJ.extractTags c row.url).length,
          (row.content.getD []).length, c.length⟩,
        List.mem_filterMap.mpr ⟨row, hmem, ?_⟩, rfl⟩
      rw [hc]
      show KJ.improvementOf row c = _
      simp only [KJ.improvementOf]
      rw [if_pos (by rcases hcond with h | h <;> simp [h])]
  · intro rec hrec hurl
    rcases List.mem_filterMap.mp hrec with ⟨row', hrow', hsome⟩
    rcases hcr : crawl row'.url with c' | ⟨e', t'⟩
    · rw [hcr] at hsome
      have hru : row' = row := by
        apply hrowEq row' hrow'
        rw [← KJ.improvementOf_url row' c' rec hsome, hurl]
      subst hru
      rw [hc] at hcr
      cases hcr
      simp only [KJ.improvementOf] at hsome
      split at hsome
      · cases hsome
        exact ⟨rfl, rfl, rfl, rfl, rfl, rfl⟩
      · cases hsome
    · rw [hcr] at hsome
      cases hsome

/-- C5 witness: a previously failed row with no tags and empty content whose
recrawl returns `"bitcoin"` appears in the improvements list. -/
theorem c5_recrawl_improvements_witness :
    ∃ rec ∈ (KJ.recrawlAllHandler [rowK]
      (fun _ => CrawlResult.ok (str "bitcoin")) 9).2, rec.url = rowK.url :=
  (c5_recrawl_improvements [rowK] (fun _ => CrawlResult.ok (str "bitcoin")) 9
    rowK (str "bitcoin") (by decide) (by decide) rfl).1.mpr (by decide)

/-! ### C10 — semantic-search result shape -/

/-- C10: every row returned by `GET /semantic-search` has stored status
`'crawled'`, non-empty content and a strictly positive score; the result
list is sorted by score descending and capped at 10; consequently a
`'protected'` entry (such as a wallet record) never appears. -/
theorem c10_semantic_search_shape (q : Str) (store : List Entry) :
    (∀ r ∈ KJ.semanticSearchHandler q store,
      r.entry.status = str "crawled" ∧
      (∃ c, r.entry.content = some c ∧ c ≠ []) ∧
      0 < r.score ∧ r.entry.status ≠ str "protected") ∧
    (KJ.semanticSearchHandler q store).length ≤ 10 ∧
    (KJ.semanticSearchHandler q store).Sorted KJ.byScoreDesc := by
  refine ⟨?_, ?_, ?_⟩
  · intro r hr
    simp only [KJ.semanticSearchHandler] at hr
    have hr2 := List.mem_of_mem_take hr
    have hr3 := ((List.perm_insertionSort KJ.byScoreDesc _).mem_iff).mp hr2
    obtain ⟨hr4, hscore⟩ := List.mem_filter.mp hr3
    rcases List.mem_map.mp hr4 with ⟨e, he, rfl⟩
    have he2 := ((List.perm_insertionSort byUpdatedDesc _).mem_iff).mp he
    obtain ⟨-, hpred⟩ := List.mem_filter.mp he2
    rw [Bool.and_eq_true] at hpred
    obtain ⟨hstat, hcont⟩ := hpred
    have hstat' := beq_iff_eq.mp hstat
    refine ⟨hstat', ?_, of_decide_eq_true hscore, ?_⟩
    · rcases hc : e.content with - | c
      · rw [hc] at hcont
        cases hcont
      · rw [hc] at hcont
        refine ⟨c, rfl, ?_⟩
        simpa using hcont
    · rw [hstat']
      decide
  · simp only [KJ.semanticSearchHandler, List.length_take]
    exact min_le_left _ _
  · simp only [KJ.semanticSearchHandler]
    exact List.Pairwise.sublist (List.take_sublist _ _)
      (List.sorted_insertionSort KJ.byScoreDesc _)

/-- C10 witness: the shape theorem applied to the concrete result of
querying `"bitcoin wallet"` against a store holding one crawled row and one
protected wallet row. -/
theorem c10_semantic_search_shape_witness :
    rowSemScored ∈ KJ.semanticSearchHandler (str "bitcoin wallet") [rowSem, walletRow] ∧
    (rowSemScored.entry.status = str "crawled" ∧
      (∃ c, rowSemScored.entry.content = some c ∧ c ≠ []) ∧
      0 < rowSemScored.score ∧ rowSemScored.entry.status ≠ str "protected") :=
  ⟨by decide,
   (c10_semantic_search_shape (str "bitcoin wallet") [rowSem, walletRow]).1
     rowSemScored (by decide)⟩

/-! ### C7 — URL guard on `POST /crawl` -/

/-- C7, counterexample: the `POST /crawl` of the router actually mounted by
`backend/app.js` (`backend/routes/knowledge.js`) performs no URL validation:
a `file:` url — whose scheme is neither http nor https — is not rejected;
the handler inserts a pending row (mutating the store for that url) and
passes the url straight to `crawlUrl`, so navigation is attempted and the
row ends up `'failed'`. -/
theorem c7_mounted_crawl_has_no_guard :
    P7.parseUrlSimple (str "file:///etc/passwd") = some (str "file:", str "") ∧
    ¬(str "file:" = str "http:" ∨ str "file:" = str "https:") ∧
    (∃ e ∈ KJ.crawlHandler [] (str "file:///etc/passwd")
        (.fail (str "net::ERR_ABORTED") (str "UNKNOWN")) 3,
      e.url = str "file:///etc/passwd" ∧ e.status = str "failed") := by
  refine ⟨by decide, by decide, by decide⟩

/-- C7, amended: in the `src/unnamed/part_007` router, `POST /crawl`
rejects any url whose scheme is not http/https or whose hostname is
private/internal with a 400 response, before any database write or browser
navigation: the store is returned unchanged, `rejected` is set and
`navigated` is not. -/
theorem c7_url_guard_p7 (store : List Entry) (url : Str) (res : P7.CrawlRes)
    (now : Nat)
    (h : P7.parseUrlSimple url = none ∨
      ∃ proto host, P7.parseUrlSimple url = some (proto, host) ∧
        (¬(proto = str "http:" ∨ proto = str "https:") ∨
          P7.privateHost host = true)) :
    P7.crawlHandler store url res now = ⟨store, true, false⟩ := by
  unfold P7.crawlHandler
  rcases h with h | ⟨proto, host, hp, hbad⟩
  · rw [h]
  · rw [hp]
    rcases hbad with hbad | hbad
    · obtain ⟨h1, h2⟩ := not_or.mp hbad
      have hfalse : (proto == str "http:" || proto == str "https:") = false := by
        simp [h1, h2]
      simp [hfalse]
    · by_cases hp2 : (proto == str "http:" || proto == str "https:") = true
      · simp [hp2, hbad]
      · simp [Bool.eq_false_iff.mpr hp2]

/-- C7 witness: the guard theorem applied to a `file:` url and to a private
`192.168.*` host. -/
theorem c7_url_guard_p7_witness :
    P7.crawlHandler [rowBoth] (str "file:///etc/passwd")
        (.thrown (str "boom")) 3 = ⟨[rowBoth], true, false⟩ ∧
    P7.crawlHandler [rowBoth] (str "http://192.168.1.7/admin")
        (.thrown (str "boom")) 3 = ⟨[rowBoth], true, false⟩ :=
  ⟨c7_url_guard_p7 [rowBoth] (str "file:///etc/passwd") (.thrown (str "boom")) 3
      (Or.inr ⟨str "file:", str "", by decide, Or.inl (by decide)⟩),
   c7_url_guard_p7 [rowBoth] (str "http://192.168.1.7/admin") (.thrown (str "boom")) 3
      (Or.inr ⟨str "http:", str "192.168.1.7", by decide, Or.inr (by decide)⟩)⟩

/-! ### C4 — prioritised keyword search -/

/-- C4, counterexample: the `GET /search` of the router actually mounted by
`backend/app.js` (`backend/routes/knowledge.js`) matches the whole query as
one contiguous `LIKE '%q%'` substring with `LIMIT 10` and no prioritisation.
For the 2-word query `"alpha beta"`, the entry whose content is
`"beta alpha"` matches both significant words but is absent from the results
(only 2 entries match any word, well within any cap), so it is not ranked
above anything — the claimed prioritisation does not hold for the mounted
endpoint. -/
theorem c4_mounted_search_not_prioritized :
    P7.sigWords (P7.sanitizeQ (str "alpha beta")) = [str "alpha", str "beta"] ∧
    P7.allWords [str "alpha", str "beta"] rowBoth = true ∧
    ([rowBoth, rowPhrase].filter
      (P7.anyWords [str "alpha", str "beta"])).length ≤ 15 ∧
    rowBoth ∉ KJ.searchHandler (str "alpha beta") [rowBoth, rowPhrase] := by
  decide

/-- A row matching all of (two) words matches any of them. -/
theorem P7.any_of_all_two (w1 w2 : Str) (e : Entry)
    (h : P7.allWords [w1, w2] e = true) : P7.anyWords [w1, w2] e = true := by
  simp only [P7.allWords, List.all_cons, List.all_nil, Bool.and_true,
    Bool.and_eq_true] at h
  simp only [P7.anyWords, List.any_cons, List.any_nil, Bool.or_false,
    Bool.or_eq_true]
  exact Or.inl h.1

/-- On a query with exactly two significant words, the `part_007` search
reduces to: filter on any-word match, sort by (priority, recency), take 15. -/
theorem P7.searchHandler_two_words (q : Str) (store : List Entry) (w1 w2 : Str)
    (hw : P7.sigWords (P7.sanitizeQ q) = [w1, w2])
    (hlen : ¬(P7.sanitizeQ q).length < 2) :
    P7.searchHandler q store =
      ((store.filter (P7.anyWords [w1, w2])).insertionSort
        (P7.byPriorityThenRecency [w1, w2])).take 15 := by
  simp only [P7.searchHandler]
  rw [if_neg hlen, hw]
  rfl

/-- C4, amended: for the `part_007` router's `GET /search` on a query with
exactly two significant words, when at most 15 stored rows match any word:
the result is capped at 15, every row matching both words appears, any
returned row matching both words is ranked strictly above any returned row
matching only one word, rows of equal priority are ordered by `updatedAt`
descending, and queries with at most one significant word are capped
at 10. -/
theorem c4_search_prioritized_p7 (q : Str) (store : List Entry) (w1 w2 : Str)
    (hw : P7.sigWords (P7.sanitizeQ q) = [w1, w2])
    (hlen : ¬(P7.sanitizeQ q).length < 2)
    (hcap : (store.filter (P7.anyWords [w1, w2])).length ≤ 15) :
    (P7.searchHandler q store).length ≤ 15 ∧
    (∀ e ∈ store, P7.allWords [w1, w2] e = true → e ∈ P7.searchHandler q store) ∧
    (∀ i j (hi : i < (P7.searchHandler q store).length)
        (hj : j < (P7.searchHandler q store).length),
      P7.allWords [w1, w2] ((P7.searchHandler q store).get ⟨i, hi⟩) = true →
      P7.anyWords [w1, w2] ((P7.searchHandler q store).get ⟨j, hj⟩) = true →
      P7.allWords [w1, w2] ((P7.searchHandler q store).get ⟨j, hj⟩) = false →
      i < j) ∧
    (∀ i j (hi : i < (P7.searchHandler q store).length)
        (hj : j < (P7.searchHandler q store).length), i < j →
      P7.priority [w1, w2] ((P7.searchHandler q store).get ⟨i, hi⟩) =
        P7.priority [w1, w2] ((P7.searchHandler q store).get ⟨j, hj⟩) →
      ((P7.searchHandler q store).get ⟨j, hj⟩).updatedAt ≤
        ((P7.searchHandler q store).get ⟨i, hi⟩).updatedAt) ∧
    (∀ (q' : Str) (store' : List Entry),
      (P7.sigWords (P7.sanitizeQ q')).length ≤ 1 →
      (P7.searchHandler q' store').length ≤ 10) := by
  have hres := P7.searchHandler_two_words q store w1 w2 hw hlen
  have hperm := List.perm_insertionSort (P7.byPriorityThenRecency [w1, w2])
    (store.filter (P7.anyWords [w1, w2]))
  have hfull : ((store.filter (P7.anyWords [w1, w2])).insertionSort
      (P7.byPriorityThenRecency [w1, w2])).take 15 =
      (store.filter (P7.anyWords [w1, w2])).insertionSort
        (P7.byPriorityThenRecency [w1, w2]) :=
    List.take_of_length_le (by rw [hperm.length_eq]; exact hcap)
  have hsorted : (P7.searchHandler q store).Sorted
      (P7.byPriorityThenRecency [w1, w2]) := by
    rw [hres]
    exact List.Pairwise.sublist (List.take_sublist _ _)
      (List.sorted_insertionSort _ _)
  have hpair := List.pairwise_iff_get.mp hsorted
  refine ⟨?_, ?_, ?_, ?_, ?_⟩
  · rw [hres]
    simp only [List.length_take]
    exact min_le_left _ _
  · intro e he hall
    rw [hres, hfull, hperm.mem_iff]
    exact List.mem_filter.mpr ⟨he, P7.any_of_all_two w1 w2 e hall⟩
  · intro i j hi hj hiall hjany hjnotall
    rcases Nat.lt_trichotomy i j with h | h | h
    · exact h
    · exfalso
      subst h
      rw [hiall] at hjnotall
      cases hjnotall
    · exfalso
      have hr := hpair ⟨j, hj⟩ ⟨i, hi⟩ h
      rcases hr with hr | ⟨hr, -⟩
      · rw [P7.priority, P7.priority, hiall, hjnotall] at hr
        simp at hr
      · rw [P7.priority, P7.priority, hiall, hjnotall] at hr
        simp at hr
  · intro i j hi hj hij hprio
    have hr := hpair ⟨i, hi⟩ ⟨j, hj⟩ hij
    rcases hr with hr | ⟨-, hr⟩
    · rw [hprio] at hr
      exact absurd hr (Nat.lt_irrefl _)
    · exact hr
  · intro q' store' h1
    simp only [P7.searchHandler]
    by_cases h2 : (P7.sanitizeQ q').length < 2
    · rw [if_pos h2]
      simp
    · rw [if_neg h2]
      have h3 : ¬1 < (P7.sigWords (P7.sanitizeQ q')).length := by omega
      rw [if_neg h3]
      simp only [List.length_take]
      exact min_le_left _ _

/-- C4 witness: the amended prioritisation theorem applied to the concrete
store of the counterexample plus a single-word-match row, showing the
both-word row is returned. -/
theorem c4_search_prioritized_p7_witness :
    rowBoth ∈ P7.searchHandler (str "alpha beta") [rowBoth, rowPhrase, rowOne] :=
  (c4_search_prioritized_p7 (str "alpha beta") [rowBoth, rowPhrase, rowOne]
    (str "alpha") (str "beta") (by decide) (by decide) (by decide)).2.1
    rowBoth (by decide) (by decide)
